import Mathlib

set_option maxRecDepth 20000

/-!
Verification development for the Picard MarkDuplicates report parser
(`multiqc/modules/picard/MarkDuplicates.py`, function `parse_reports`).

The Python source is shallowly embedded below:

* lines are modelled as strings without their trailing newline, so the
  source's `rstrip("\n")` is the identity and is omitted;
* Python dictionaries (both the per-sample field map and the cumulative
  sample collection) are modelled as association lists with
  replace-in-place insertion, which matches `dict` assignment semantics
  and preserves insertion order;
* numeric values produced by `float(...)` are modelled as exact
  rationals; every value handled by this module's arithmetic
  (small integer counts and short decimal fractions) is represented
  exactly by a double, so the idealisation does not change any result
  proved here.  Exotic `float` spellings (`inf`, `nan`, underscore
  separators) are treated as non-numeric text;
* exceptions (`IndexError`, `KeyError`, `TypeError`) escaping
  `parse_reports` are modelled by `Except.error`;
* the external collaborators `clean_s_name` and `ignore_samples` are
  parameters (`clean`, `ignored`); logging is modelled by a list of
  structured events tagged with the level of the corresponding
  `log.debug` / `log.warn` call.  Presentation-only side effects
  (`add_data_source`, `write_data_file`, the general-stats table and the
  plot call) are not modelled, except for the chart key list and labels,
  which claim C7 is about.
-/

/-- Whitespace as Python's `str.strip()` / `re` `\s` treat it for the
ASCII range: space, tab, newline, carriage return, vertical tab, form feed. -/
def isSpaceC (c : Char) : Bool :=
  c == ' ' || c == '\t' || c == '\n' || c == '\r' || c == '\x0b' || c == '\x0c'

/-- Model of Python `str.lower()` (ASCII letters; the strings scanned by
this module are ASCII). -/
def lowerStr (s : String) : String := String.mk (s.toList.map Char.toLower)

/-- Boolean list-prefix test used by the substring search below. -/
def prefCL : List Char → List Char → Bool
  | [], _ => true
  | _ :: _, [] => false
  | a :: as, b :: bs => a == b && prefCL as bs

/-- Substring occurrence test on character lists. -/
def subCL (pat : List Char) : List Char → Bool
  | [] => pat.isEmpty
  | b :: bs => prefCL pat (b :: bs) || subCL pat bs

/-- Model of Python's `pat in s` substring test. -/
def strContains (s pat : String) : Bool := subCL pat.toList s.toList

/-- Split a character list on a separator character; like Python
`str.split(sep)` this never collapses runs and never returns an empty list. -/
def splitOnChar (sep : Char) : List Char → List (List Char)
  | [] => [[]]
  | c :: cs =>
    match splitOnChar sep cs with
    | [] => [[]]
    | g :: gs => if c == sep then [] :: g :: gs else (c :: g) :: gs

/-- Model of the source's `l.split("\t")`. -/
def splitTab (s : String) : List String :=
  (splitOnChar '\t' s.toList).map (fun cs => String.mk cs)

theorem splitOnChar_ne_nil (sep : Char) (cs : List Char) : splitOnChar sep cs ≠ [] := by
  cases cs with
  | nil => simp [splitOnChar]
  | cons c cs =>
    simp only [splitOnChar]
    match h : splitOnChar sep cs with
    | [] => simp
    | g :: gs =>
      by_cases hc : (c == sep) = true
      · simp [hc]
      · simp [hc]

theorem splitTab_ne_nil (s : String) : splitTab s ≠ [] := by
  simp [splitTab, splitOnChar_ne_nil]

/-- Numeric value of a decimal digit character. -/
def digitVal (c : Char) : Nat := c.toNat - 48

/-- Value of a digit run, most significant digit first. -/
def digitsVal (cs : List Char) : Nat := cs.foldl (fun a c => 10 * a + digitVal c) 0

/-- Model of Python `float(str)` restricted to finite decimal literals:
optional surrounding whitespace, optional sign, digits with an optional
fractional part, optional exponent.  `float` also accepts `inf` / `nan`
and underscore digit separators; those never occur in Picard metric rows
and are treated as non-numeric here. -/
def parseFloat (s : String) : Option ℚ :=
  let cs0 := ((s.toList.dropWhile isSpaceC).reverse.dropWhile isSpaceC).reverse
  let signed : Bool × List Char :=
    match cs0 with
    | '+' :: r => (false, r)
    | '-' :: r => (true, r)
    | r => (false, r)
  let neg := signed.1
  let cs1 := signed.2
  let ip := cs1.takeWhile Char.isDigit
  let cs2 := cs1.dropWhile Char.isDigit
  let fracPart : List Char × List Char :=
    match cs2 with
    | '.' :: r => (r.takeWhile Char.isDigit, r.dropWhile Char.isDigit)
    | r => ([], r)
  let fp := fracPart.1
  let cs3 := fracPart.2
  if ip.isEmpty && fp.isEmpty then none
  else
    let mnum : Int := (if neg then -1 else 1) * (digitsVal (ip ++ fp) : Int)
    let mden : Nat := 10 ^ fp.length
    match cs3 with
    | [] => some (mkRat mnum mden)
    | e :: r1 =>
      if e == 'e' || e == 'E' then
        let esigned : Bool × List Char :=
          match r1 with
          | '+' :: rr => (false, rr)
          | '-' :: rr => (true, rr)
          | rr => (false, rr)
        let ed := esigned.2.takeWhile Char.isDigit
        let r3 := esigned.2.dropWhile Char.isDigit
        if ed.isEmpty || !r3.isEmpty then none
        else if esigned.1 then some (mkRat mnum (mden * 10 ^ digitsVal ed))
        else some (mkRat (mnum * ((10 : Int) ^ digitsVal ed)) mden)
      else none

/-- Executable multiplication on ℚ.  `Rat.mul` is `@[irreducible]`, so the
embedding computes products through `mkRat`; `ratMul_eq` shows this is
ordinary multiplication. -/
def ratMul (a b : ℚ) : ℚ := mkRat (a.num * b.num) (a.den * b.den)

/-- Executable subtraction on ℚ, in the same style as `ratMul`. -/
def ratSub (a b : ℚ) : ℚ := mkRat (a.num * b.den - b.num * a.den) (a.den * b.den)

theorem ratMul_eq (a b : ℚ) : ratMul a b = a * b := by
  rw [ratMul, Rat.mul_def, Rat.normalize_eq_mkRat]

theorem ratSub_eq (a b : ℚ) : ratSub a b = a - b := by
  rw [ratSub, Rat.sub_def']

/-- The value type stored in a sample record: `float(vals[i])` on success,
the raw text on `ValueError` (source lines 52-56). -/
inductive FieldValue where
  | num (q : ℚ)
  | text (s : String)
deriving DecidableEq, Repr

/-- Coercion applied to each tab-separated value: keep the parsed float,
or the verbatim text when float conversion fails. -/
def coerce (v : String) : FieldValue :=
  match parseFloat v with
  | some q => .num q
  | none => .text v

/-- A per-sample field map (Python dict, insertion ordered). -/
abbrev Record := List (String × FieldValue)

/-- The cumulative `self.picard_dupMetrics_data` collection. -/
abbrev Collection := List (String × Record)

/-- Dict lookup. -/
def alookup {α : Type} : List (String × α) → String → Option α
  | [], _ => none
  | (k', v) :: r, k => if k' = k then some v else alookup r k

/-- Dict assignment: replace the value in place when the key is present,
append otherwise. -/
def aupsert {α : Type} : List (String × α) → String → α → List (String × α)
  | [], k, v => [(k, v)]
  | (k', v') :: r, k, v => if k' = k then (k, v) :: r else (k', v') :: aupsert r k v

/-- Dict `pop(k, None)`: remove the entry stored under `k`.  On the
duplicate-free lists built by this development this agrees with Python's
single-entry removal. -/
def aerase {α : Type} : List (String × α) → String → List (String × α)
  | [], _ => []
  | (k', v) :: r, k => if k' = k then aerase r k else (k', v) :: aerase r k

theorem alookup_aupsert {α : Type} (l : List (String × α)) (k : String) (v : α) (k' : String) :
    alookup (aupsert l k v) k' = if k' = k then some v else alookup l k' := by
  induction l with
  | nil =>
    by_cases h : k' = k
    · simp [aupsert, alookup, h]
    · simp [aupsert, alookup, h, Ne.symm h]
  | cons hd tl ih =>
    obtain ⟨k0, v0⟩ := hd
    by_cases h0 : k0 = k
    · subst h0
      by_cases h : k' = k0
      · subst h
        simp [aupsert, alookup]
      · simp [aupsert, alookup, h, Ne.symm h]
    · by_cases h : k' = k0
      · subst h
        simp [aupsert, alookup, h0, Ne.symm h0]
      · simp [aupsert, alookup, h0, Ne.symm h, ih]

theorem alookup_aerase {α : Type} (l : List (String × α)) (k k' : String) :
    alookup (aerase l k) k' = if k' = k then none else alookup l k' := by
  induction l with
  | nil => simp [aerase, alookup]
  | cons hd tl ih =>
    obtain ⟨k0, v0⟩ := hd
    by_cases h0 : k0 = k
    · subst h0
      by_cases h : k' = k0
      · subst h
        simp [aerase, alookup, ih]
      · simp [aerase, alookup, ih, h, Ne.symm h]
    · by_cases h : k' = k0
      · subst h
        simp [aerase, alookup, h0, Ne.symm h0]
      · simp [aerase, alookup, h0, Ne.symm h, ih]

theorem mem_aupsert {α : Type} {p : String × α} {l : List (String × α)} {k : String} {v : α}
    (h : p ∈ aupsert l k v) : p ∈ l ∨ p = (k, v) := by
  induction l with
  | nil => simpa [aupsert] using h
  | cons hd tl ih =>
    obtain ⟨k0, v0⟩ := hd
    by_cases h0 : k0 = k
    · simp [aupsert, h0] at h
      rcases h with h | h
      · right; simp [h, Prod.ext_iff]
      · left; simp [h]
    · simp [aupsert, h0] at h
      rcases h with h | h
      · left; simp [h, Prod.ext_iff]
      · rcases ih h with h' | h'
        · left; simp [h']
        · right; exact h'

theorem mem_aerase {α : Type} {p : String × α} {l : List (String × α)} {k : String}
    (h : p ∈ aerase l k) : p ∈ l := by
  induction l with
  | nil => simpa [aerase] using h
  | cons hd tl ih =>
    obtain ⟨k0, v0⟩ := hd
    by_cases h0 : k0 = k
    · simp [aerase, h0] at h
      exact List.mem_cons_of_mem _ (ih h)
    · simp [aerase, h0] at h
      rcases h with h | h
      · simp [h, Prod.ext_iff]
      · exact List.mem_cons_of_mem _ (ih h)

theorem mem_keys_aupsert {α : Type} (l : List (String × α)) (k : String) (v : α) (k' : String) :
    k' ∈ (aupsert l k v).map Prod.fst ↔ k' ∈ l.map Prod.fst ∨ k' = k := by
  induction l with
  | nil => simp [aupsert]
  | cons hd tl ih =>
    obtain ⟨k0, v0⟩ := hd
    by_cases h0 : k0 = k
    · subst h0
      rw [show aupsert ((k0, v0) :: tl) k0 v = (k0, v) :: tl from by simp [aupsert]]
      simp only [List.map_cons, List.mem_cons]
      tauto
    · simp only [aupsert, if_neg h0, List.map_cons, List.mem_cons, ih]
      tauto

theorem keys_aupsert_nodup {α : Type} {l : List (String × α)} (k : String) (v : α)
    (h : (l.map Prod.fst).Nodup) : ((aupsert l k v).map Prod.fst).Nodup := by
  induction l with
  | nil => simp [aupsert]
  | cons hd tl ih =>
    obtain ⟨k0, v0⟩ := hd
    rw [List.map_cons, List.nodup_cons] at h
    by_cases h0 : k0 = k
    · subst h0
      rw [show aupsert ((k0, v0) :: tl) k0 v = (k0, v) :: tl from by simp [aupsert]]
      simp only [List.map_cons, List.nodup_cons]
      exact h
    · simp only [aupsert, if_neg h0, List.map_cons, List.nodup_cons]
      refine ⟨?_, ih h.2⟩
      intro hc
      rcases (mem_keys_aupsert tl k v k0).mp hc with hc | hc
      · exact h.1 hc
      · exact h0 hc

theorem keys_aerase_sublist {α : Type} (l : List (String × α)) (k : String) :
    ((aerase l k).map Prod.fst).Sublist (l.map Prod.fst) := by
  induction l with
  | nil => simp [aerase]
  | cons hd tl ih =>
    obtain ⟨k0, v0⟩ := hd
    by_cases h0 : k0 = k
    · simp only [aerase, if_pos h0, List.map]
      exact ih.cons _
    · simp only [aerase, if_neg h0, List.map]
      exact ih.cons₂ _

/-- The inner field-parse loop (source lines 53-56): walk the header
fields positionally, coercing the matching value; a missing value
position is Python's `vals[i]` → `IndexError`, which `except ValueError`
does not catch. -/
def ppGo : List String → List String → Record → Except String Record
  | [], _, r => .ok r
  | _ :: _, [], _ => .error "IndexError: list index out of range"
  | k :: ks, v :: vs, r => ppGo ks vs (aupsert r k (coerce v))

/-- Parse one header row / value row pair into a fresh record
(source lines 50-56, starting from the fresh `dict()`). -/
def parsePair (keys vals : List String) : Except String Record :=
  ppGo keys vals []

theorem ppGo_ok (ks : List String) :
    ∀ (vs : List String) (r : Record), ks.length ≤ vs.length →
      ∃ r', ppGo ks vs r = .ok r' := by
  induction ks with
  | nil => intro vs r _; exact ⟨r, rfl⟩
  | cons k ks ih =>
    intro vs r h
    cases vs with
    | nil => simp at h
    | cons v vs =>
      simp only [List.length_cons, Nat.add_le_add_iff_right] at h
      exact ih vs (aupsert r k (coerce v)) h

theorem ppGo_lookup_notmem (ks : List String) :
    ∀ (vs : List String) (r r' : Record) (k : String),
      ppGo ks vs r = .ok r' → k ∉ ks → alookup r' k = alookup r k := by
  induction ks with
  | nil =>
    intro vs r r' k h _
    simp only [ppGo, Except.ok.injEq] at h
    simp [h]
  | cons k0 ks ih =>
    intro vs r r' k h hk
    cases vs with
    | nil => simp [ppGo] at h
    | cons v vs =>
      simp only [List.mem_cons, not_or] at hk
      have := ih vs (aupsert r k0 (coerce v)) r' k h hk.2
      rw [this, alookup_aupsert, if_neg hk.1]

theorem ppGo_isSome_mono (ks : List String) :
    ∀ (vs : List String) (r r' : Record) (k : String),
      ppGo ks vs r = .ok r' → (alookup r k).isSome → (alookup r' k).isSome := by
  induction ks with
  | nil =>
    intro vs r r' k h hs
    simp only [ppGo, Except.ok.injEq] at h
    simpa [← h] using hs
  | cons k0 ks ih =>
    intro vs r r' k h hs
    cases vs with
    | nil => simp [ppGo] at h
    | cons v vs =>
      refine ih vs (aupsert r k0 (coerce v)) r' k h ?_
      rw [alookup_aupsert]
      by_cases hkk : k = k0
      · simp [hkk]
      · simpa [hkk] using hs

theorem ppGo_isSome (ks : List String) :
    ∀ (vs : List String) (r r' : Record) (k : String),
      ppGo ks vs r = .ok r' → k ∈ ks → (alookup r' k).isSome := by
  induction ks with
  | nil => intro vs r r' k _ hk; simp at hk
  | cons k0 ks ih =>
    intro vs r r' k h hk
    cases vs with
    | nil => simp [ppGo] at h
    | cons v vs =>
      rcases List.mem_cons.mp hk with hk0 | hk'
      · subst hk0
        refine ppGo_isSome_mono ks vs _ r' k h ?_
        simp [alookup_aupsert]
      · exact ih vs (aupsert r k0 (coerce v)) r' k h hk'

theorem ppGo_keys_sub (ks : List String) :
    ∀ (vs : List String) (r r' : Record) (k : String),
      ppGo ks vs r = .ok r' → (alookup r' k).isSome →
      (alookup r k).isSome ∨ k ∈ ks := by
  induction ks with
  | nil =>
    intro vs r r' k h hs
    simp only [ppGo, Except.ok.injEq] at h
    left; simpa [h] using hs
  | cons k0 ks ih =>
    intro vs r r' k h hs
    cases vs with
    | nil => simp [ppGo] at h
    | cons v vs =>
      rcases ih vs (aupsert r k0 (coerce v)) r' k h hs with h' | h'
      · rw [alookup_aupsert] at h'
        by_cases hkk : k = k0
        · right; simp [hkk]
        · left; simpa [hkk] using h'
      · right; simp [h']

theorem ppGo_pos (ks : List String) :
    ∀ (vs : List String) (r r' : Record),
      ppGo ks vs r = .ok r' → ks.Nodup →
      ∀ i (hi : i < ks.length) (hv : i < vs.length),
        alookup r' (ks.get ⟨i, hi⟩) = some (coerce (vs.get ⟨i, hv⟩)) := by
  induction ks with
  | nil => intro vs r r' _ _ i hi; simp at hi
  | cons k0 ks ih =>
    intro vs r r' h hnd i hi hv
    cases vs with
    | nil => simp [ppGo] at h
    | cons v vs =>
      rw [List.nodup_cons] at hnd
      cases i with
      | zero =>
        simp only [List.get]
        rw [ppGo_lookup_notmem ks vs _ r' k0 h hnd.1, alookup_aupsert, if_pos rfl]
      | succ j =>
        simp only [List.get]
        exact ih vs (aupsert r k0 (coerce v)) r' h hnd.2 j (by simpa using hi)
          (by simpa using hv)

theorem alookup_isSome_iff {α : Type} (l : List (String × α)) (k : String) :
    (alookup l k).isSome ↔ k ∈ l.map Prod.fst := by
  induction l with
  | nil => simp [alookup]
  | cons hd tl ih =>
    obtain ⟨k0, v0⟩ := hd
    by_cases h : k0 = k
    · subst h
      simp [alookup]
    · rw [List.map_cons, List.mem_cons]
      simp only [alookup, if_neg h, ih]
      constructor
      · intro hm; exact Or.inr hm
      · intro hm
        rcases hm with hm | hm
        · exact absurd hm.symm h
        · exact hm

example : splitTab "a\tb" = ["a", "b"] := by decide
example : splitTab "" = [""] := by decide
example : parseFloat "100" = some 100 := by decide
example : parseFloat "0.5" = some (mkRat 1 2) := by decide
example : parseFloat "abc" = none := by decide
example : parseFloat "-2e2" = some (-200) := by decide
example : coerce "lib1" = .text "lib1" := by decide
example : strContains "xxUNPAIRED_READ_DUPLICATESyy" "UNPAIRED_READ_DUPLICATES" = true := by decide
example : strContains (lowerStr "Picard.MarkDuplicates INPUT=[a.bam]") "markduplicates" = true := by decide

/-- Lookup raising Python `KeyError` when the field is absent
(`metr["..."]`). -/
def getVal (r : Record) (k : String) : Except String FieldValue :=
  match alookup r k with
  | some v => .ok v
  | none => .error ("KeyError: " ++ k)

/-- Arithmetic on a field value: Python raises `TypeError` when a string
value meets `*` or `-` with a float. -/
def asNum : FieldValue → Except String ℚ
  | .num q => .ok q
  | .text _ => .error "TypeError: unsupported operand type for str"

/-- Python `value == 0` on a record field: floats compare numerically,
retained text values are never equal to `0`. -/
def eqZeroPy : FieldValue → Bool
  | .num q => q == 0
  | .text _ => false

/-- The no-reads validation test of source lines 58-59:
`metr.get('READ_PAIRS_EXAMINED', 0) == 0 and
 metr.get('UNPAIRED_READS_EXAMINED', 0) == 0`. -/
def bothZero (r : Record) : Bool :=
  eqZeroPy ((alookup r "READ_PAIRS_EXAMINED").getD (.num 0)) &&
  eqZeroPy ((alookup r "UNPAIRED_READS_EXAMINED").getD (.num 0))

/-- One discovered log file: default sample name, file name, root
directory and its lines (`f['s_name']`, `f['fn']`, `f['root']`, `f['f']`). -/
structure LogFile where
  s_name : String
  fn : String
  root : String
  lines : List String

/-- Level of a log call in the source. -/
inductive LogLevel where
  | debug
  | warn
deriving DecidableEq, Repr

/-- Log events emitted by `parse_reports`: the duplicate-sample message
(line 47, `log.debug`), the no-reads skip (line 61, `log.warn`) and the
empty-record removal (line 66, `log.debug`). -/
inductive LogEvent where
  | duplicateName (fn s : String)
  | noReads (s : String)
  | removedEmpty (s : String)
deriving DecidableEq, Repr

/-- The level each event is logged at in the source. -/
def LogEvent.level : LogEvent → LogLevel
  | .duplicateName _ _ => .debug
  | .noReads _ => .warn
  | .removedEmpty _ => .debug

/-- Whether an event is the duplicate-sample-name message. -/
def LogEvent.isDup : LogEvent → Bool
  | .duplicateName _ _ => true
  | _ => false

/-- Block-start test of line 34:
`'markduplicates' in l.lower() and 'input' in l.lower()`. -/
def blockStart (l : String) : Bool :=
  strContains (lowerStr l) "markduplicates" && strContains (lowerStr l) "input"

/-- Header-marker test of line 44: `'UNPAIRED_READ_DUPLICATES' in l`. -/
def hasMarker (l : String) : Bool := strContains l "UNPAIRED_READ_DUPLICATES"

/-- The characters `input`, the case-insensitive literal part of the
regex `INPUT(?:=|\s+)(\[?[^\s]+\]?)` of line 37. -/
def inputPat : List Char := ['i', 'n', 'p', 'u', 't']

/-- Case-insensitive prefix test (pattern given in lowercase). -/
def caselessPref : List Char → List Char → Bool
  | [], _ => true
  | _ :: _, [] => false
  | a :: as, b :: bs => a == b.toLower && caselessPref as bs

/-- After a matched `INPUT`, the regex requires `=` or whitespace and then
a non-empty non-whitespace token; the greedy `\[?[^\s]+\]?` group is the
whole maximal non-whitespace run. -/
def tokenAfter (t : List Char) : Option (List Char) :=
  match t with
  | '=' :: u =>
    let tok := u.takeWhile (fun c => !isSpaceC c)
    if tok.isEmpty then none else some tok
  | _ =>
    let sp := t.takeWhile isSpaceC
    let u := t.dropWhile isSpaceC
    if sp.isEmpty then none
    else
      let tok := u.takeWhile (fun c => !isSpaceC c)
      if tok.isEmpty then none else some tok

/-- Leftmost-match search for the `INPUT` regex of line 37, returning the
captured token. -/
def findInputTok : List Char → Option (List Char)
  | [] => none
  | c :: rest =>
    if caselessPref inputPat (c :: rest) then
      match tokenAfter ((c :: rest).drop 5) with
      | some tok => some tok
      | none => findInputTok rest
    else findInputTok rest

/-- A bracket character, for Python `str.strip('[]')`. -/
def isBracketC (c : Char) : Bool := c == '[' || c == ']'

/-- Python `token.strip('[]')`: drop bracket characters from both ends. -/
def stripBracketsCL (cs : List Char) : List Char :=
  ((cs.dropWhile isBracketC).reverse.dropWhile isBracketC).reverse

/-- Python `os.path.basename`: the part after the last `/`. -/
def basenameCL (cs : List Char) : List Char :=
  (cs.reverse.takeWhile (fun c => c != '/')).reverse

/-- Lines 35-41 of the source: on a block-start line reset the pending
sample name, then resolve it from the `INPUT` directive when present,
feeding the basename through the external `clean_s_name` collaborator. -/
def resolveName (clean : String → String → String) (root l : String) : Option String :=
  match findInputTok l.toList with
  | none => none
  | some tok => some (clean (String.mk (basenameCL (stripBracketsCL tok))) root)

/-- Per-line update of the pending sample name: a block-start line
replaces it with the freshly resolved name (or `none`), any other line
leaves it unchanged. -/
def updateSName (clean : String → String → String) (root l : String)
    (sn : Option String) : Option String :=
  if blockStart l then resolveName clean root l else sn

/-- Lines 46-62 of the source: processing of one header row (`l`) and its
value row (`vline`) for the pending sample `s` — duplicate-name debug
message, fresh record, field parse, then the no-reads validation that
pops the record and warns. -/
def headerStep (f : LogFile) (s l vline : String) (data : Collection)
    (ev : List LogEvent) : Except String (Collection × List LogEvent) :=
  let ev1 := if (alookup data s).isSome then ev ++ [LogEvent.duplicateName f.fn s] else ev
  match parsePair (splitTab l) (splitTab vline) with
  | .error e => .error e
  | .ok rec =>
    if bothZero rec then
      .ok (aerase (aupsert data s rec) s, ev1 ++ [LogEvent.noReads s])
    else
      .ok (aupsert data s rec, ev1)

/-- The per-line loop of lines 33-62.  The value row is consumed from the
same line iterator by `readline()`; at end of file `readline()` returns
the empty string. -/
def processLines (clean : String → String → String) (f : LogFile) :
    List String → Option String → Collection → List LogEvent →
    Except String (Collection × List LogEvent)
  | [], _, data, ev => .ok (data, ev)
  | l :: rest, sn, data, ev =>
    match updateSName clean f.root l sn with
    | none => processLines clean f rest none data ev
    | some s =>
      if hasMarker l then
        match rest with
        | [] => headerStep f s l "" data ev
        | v :: rest2 =>
          match headerStep f s l v data ev with
          | .error e => .error e
          | .ok (d1, e1) => processLines clean f rest2 none d1 e1
      else processLines clean f rest (some s) data ev

/-- Lines 64-67 of the source: after a file is scanned, records with no
parsed fields are removed with a debug message. -/
def cleanupEmpty (data : Collection) (ev : List LogEvent) :
    Collection × List LogEvent :=
  (data.filter (fun p => !p.2.isEmpty),
   ev ++ (data.filter (fun p => p.2.isEmpty)).map (fun p => LogEvent.removedEmpty p.1))

/-- One iteration of the file loop (lines 31-67): the pending sample name
starts as the file's default name `f['s_name']`. -/
def processFile (clean : String → String → String) (f : LogFile)
    (data : Collection) (ev : List LogEvent) :
    Except String (Collection × List LogEvent) :=
  match processLines clean f f.lines (some f.s_name) data ev with
  | .error e => .error e
  | .ok (d, e) => .ok (cleanupEmpty d e)

/-- The whole file loop over the discovered log files. -/
def scanFiles (clean : String → String → String) :
    List LogFile → Collection → List LogEvent →
    Except String (Collection × List LogEvent)
  | [], data, ev => .ok (data, ev)
  | f :: fs, data, ev =>
    match processFile clean f data ev with
    | .error e => .error e
    | .ok (d, e) => scanFiles clean fs d e

/-- Line 98: `metr["READS_IN_DUPLICATE_PAIRS"] = 2.0 * metr["READ_PAIR_DUPLICATES"]`. -/
def calc1 (r : Record) : Except String Record :=
  match getVal r "READ_PAIR_DUPLICATES" with
  | .error e => .error e
  | .ok v =>
    match asNum v with
    | .error e => .error e
    | .ok d => .ok (aupsert r "READS_IN_DUPLICATE_PAIRS" (.num (ratMul 2 d)))

/-- Line 99: `metr["READS_IN_UNIQUE_PAIRS"] = 2.0 * (metr["READ_PAIRS_EXAMINED"] - metr["READ_PAIR_DUPLICATES"])`; lookups happen left to right before the arithmetic. -/
def calc2 (r : Record) : Except String Record :=
  match getVal r "READ_PAIRS_EXAMINED" with
  | .error e => .error e
  | .ok v1 =>
    match getVal r "READ_PAIR_DUPLICATES" with
    | .error e => .error e
    | .ok v2 =>
      match asNum v1 with
      | .error e => .error e
      | .ok pe =>
        match asNum v2 with
        | .error e => .error e
        | .ok d => .ok (aupsert r "READS_IN_UNIQUE_PAIRS" (.num (ratMul 2 (ratSub pe d))))

/-- Line 100: `metr["READS_IN_UNIQUE_UNPAIRED"] = metr["UNPAIRED_READS_EXAMINED"] - metr["UNPAIRED_READ_DUPLICATES"]`. -/
def calc3 (r : Record) : Except String Record :=
  match getVal r "UNPAIRED_READS_EXAMINED" with
  | .error e => .error e
  | .ok v1 =>
    match getVal r "UNPAIRED_READ_DUPLICATES" with
    | .error e => .error e
    | .ok v2 =>
      match asNum v1 with
      | .error e => .error e
      | .ok ue =>
        match asNum v2 with
        | .error e => .error e
        | .ok ud => .ok (aupsert r "READS_IN_UNIQUE_UNPAIRED" (.num (ratSub ue ud)))

/-- Line 101: `metr["READS_IN_DUPLICATE_PAIRS_OPTICAL"] = 2.0 * metr["READ_PAIR_OPTICAL_DUPLICATES"]`. -/
def calc4 (r : Record) : Except String Record :=
  match getVal r "READ_PAIR_OPTICAL_DUPLICATES" with
  | .error e => .error e
  | .ok v =>
    match asNum v with
    | .error e => .error e
    | .ok od => .ok (aupsert r "READS_IN_DUPLICATE_PAIRS_OPTICAL" (.num (ratMul 2 od)))

/-- Line 102: `metr["READS_IN_DUPLICATE_PAIRS_NONOPTICAL"] = metr["READS_IN_DUPLICATE_PAIRS"] - metr["READS_IN_DUPLICATE_PAIRS_OPTICAL"]`. -/
def calc5 (r : Record) : Except String Record :=
  match getVal r "READS_IN_DUPLICATE_PAIRS" with
  | .error e => .error e
  | .ok v1 =>
    match getVal r "READS_IN_DUPLICATE_PAIRS_OPTICAL" with
    | .error e => .error e
    | .ok v2 =>
      match asNum v1 with
      | .error e => .error e
      | .ok dp =>
        match asNum v2 with
        | .error e => .error e
        | .ok op => .ok (aupsert r "READS_IN_DUPLICATE_PAIRS_NONOPTICAL" (.num (ratSub dp op)))

/-- Line 103: `metr["READS_IN_DUPLICATE_UNPAIRED"] = metr["UNPAIRED_READ_DUPLICATES"]` — a plain copy, no arithmetic, so a text value is copied verbatim. -/
def calc6 (r : Record) : Except String Record :=
  match getVal r "UNPAIRED_READ_DUPLICATES" with
  | .error e => .error e
  | .ok v => .ok (aupsert r "READS_IN_DUPLICATE_UNPAIRED" v)

/-- Line 104: `metr["READS_UNMAPPED"] = metr["UNMAPPED_READS"]` — plain copy. -/
def calc7 (r : Record) : Except String Record :=
  match getVal r "UNMAPPED_READS" with
  | .error e => .error e
  | .ok v => .ok (aupsert r "READS_UNMAPPED" v)

/-- Lines 97-104: the derived-metrics statements for one record, in
source order. -/
def derive (r : Record) : Except String Record :=
  match calc1 r with
  | .error e => .error e
  | .ok r1 =>
    match calc2 r1 with
    | .error e => .error e
    | .ok r2 =>
      match calc3 r2 with
      | .error e => .error e
      | .ok r3 =>
        match calc4 r3 with
        | .error e => .error e
        | .ok r4 =>
          match calc5 r4 with
          | .error e => .error e
          | .ok r5 =>
            match calc6 r5 with
            | .error e => .error e
            | .ok r6 => calc7 r6

/-- The `for s_name, metr in ... .items()` loop of line 97, in insertion
order; the first raised exception aborts the whole call. -/
def deriveAll : Collection → Except String Collection
  | [] => .ok []
  | (s, r) :: rest =>
    match derive r with
    | .error e => .error e
    | .ok r' =>
      match deriveAll rest with
      | .error e => .error e
      | .ok rest' => .ok ((s, r') :: rest')

/-- The observable outcome of `parse_reports`: the final collection, the
log events, and the returned sample count. -/
structure ParseResult where
  data : Collection
  events : List LogEvent
  count : Nat
deriving DecidableEq, Repr

/-- Lines 74-150 after the scan: if any samples remain past the exclusion
filter, run the derived-metrics loop; the returned count is the size of
the final collection.  Presentation-only effects are not modelled. -/
def finalize (ev : List LogEvent) (data1 : Collection) : Except String ParseResult :=
  if data1.isEmpty then .ok ⟨data1, ev, data1.length⟩
  else
    match deriveAll data1 with
    | .error e => .error e
    | .ok data2 => .ok ⟨data2, ev, data2.length⟩

/-- Shallow embedding of the whole of `parse_reports` (lines 27-150):
scan all files, apply the external `ignore_samples` filter, then
`finalize`. -/
def parse_reports (clean : String → String → String) (ignored : String → Bool)
    (files : List LogFile) : Except String ParseResult :=
  match scanFiles clean files [] [] with
  | .error e => .error e
  | .ok (data0, ev) => finalize ev (data0.filter (fun p => !ignored p.1))

/-- The final collection of a run, empty when an exception escaped. -/
def resultData : Except String ParseResult → Collection
  | .ok res => res.data
  | .error _ => []

/-- The emitted log events of a run, empty when an exception escaped. -/
def resultEvents : Except String ParseResult → List LogEvent
  | .ok res => res.events
  | .error _ => []

/-- The chart field list `keys_r` of lines 107-114 — the fields stacked in
the deduplication bar plot, in source order. -/
def keys_r : List String :=
  ["READS_IN_UNIQUE_PAIRS",
   "READS_IN_UNIQUE_UNPAIRED",
   "READS_IN_DUPLICATE_PAIRS_OPTICAL",
   "READS_IN_DUPLICATE_PAIRS_NONOPTICAL",
   "READS_IN_DUPLICATE_UNPAIRED",
   "READS_UNMAPPED"]

/-- Strip a possible prefix from a character list, for the replacement
scan below. -/
def stripPrefCL : List Char → List Char → Option (List Char)
  | [], s => some s
  | _ :: _, [] => none
  | a :: as, b :: bs => if a == b then stripPrefCL as bs else none

/-- Fuelled replace-all scan over a character list; with fuel at least
the list length plus one and a non-empty pattern it performs Python
`str.replace`'s left-to-right non-overlapping replacement. -/
def replaceFuel (pat rep : List Char) : Nat → List Char → List Char
  | 0, s => s
  | _ + 1, [] => []
  | fuel + 1, c :: rest =>
    if pat.isEmpty then c :: rest
    else
      match stripPrefCL pat (c :: rest) with
      | some t => rep ++ replaceFuel pat rep fuel t
      | none => c :: replaceFuel pat rep fuel rest

/-- Model of Python `s.replace(pat, rep)` (all occurrences, left to
right). -/
def pyReplace (s pat rep : String) : String :=
  String.mk (replaceFuel pat.toList rep.toList (s.toList.length + 1) s.toList)

/-- Character scan of Python `str.title()`: a letter after a non-letter is
uppercased, a letter after a letter is lowercased. -/
def titleCL : Bool → List Char → List Char
  | _, [] => []
  | prev, c :: rest =>
    if c.isAlpha then
      (if prev then c.toLower else c.toUpper) :: titleCL true rest
    else c :: titleCL false rest

/-- Model of Python `s.title()`. -/
def pyTitle (s : String) : String := String.mk (titleCL false s.toList)

/-- The chart label of line 116:
`k.replace('READS_', '').replace('IN_', '').replace('_', ' ').title()`. -/
def chartLabel (k : String) : String :=
  pyTitle (pyReplace (pyReplace (pyReplace k "READS_" "") "IN_" "") "_" " ")

/-- The `keys` OrderedDict passed to the bar plot: each chart field with
its derived label, in `keys_r` order (lines 115-116). -/
def chartKeys : List (String × String) := keys_r.map (fun k => (k, chartLabel k))

/-- The seven derived field names added by lines 98-104, in assignment
order. -/
def derivedNames : List String :=
  ["READS_IN_DUPLICATE_PAIRS", "READS_IN_UNIQUE_PAIRS", "READS_IN_UNIQUE_UNPAIRED",
   "READS_IN_DUPLICATE_PAIRS_OPTICAL", "READS_IN_DUPLICATE_PAIRS_NONOPTICAL",
   "READS_IN_DUPLICATE_UNPAIRED", "READS_UNMAPPED"]

instance {e a : Type} [DecidableEq e] [DecidableEq a] : DecidableEq (Except e a) := fun x y =>
  match x, y with
  | .error u, .error v =>
    if h : u = v then isTrue (by rw [h]) else isFalse (by intro hh; cases hh; exact h rfl)
  | .ok u, .ok v =>
    if h : u = v then isTrue (by rw [h]) else isFalse (by intro hh; cases hh; exact h rfl)
  | .error _, .ok _ => isFalse (by intro hh; cases hh)
  | .ok _, .error _ => isFalse (by intro hh; cases hh)

/-- The record held by a successful parse step, or the empty record on an
exception. -/
def okRecord : Except String Record → Record
  | .ok r => r
  | .error _ => []

/-- The collection component of one scanner step, or the empty collection
on an exception. -/
def stepData : Except String (Collection × List LogEvent) → Collection
  | .ok pr => pr.1
  | .error _ => []

theorem calc1_lookup_ne {r r' : Record} (h : calc1 r = .ok r') {k : String}
    (hk : k ≠ "READS_IN_DUPLICATE_PAIRS") : alookup r' k = alookup r k := by
  unfold calc1 at h
  split at h
  · simp at h
  · split at h
    · simp at h
    · simp only [Except.ok.injEq] at h
      subst h
      rw [alookup_aupsert, if_neg hk]

theorem calc2_lookup_ne {r r' : Record} (h : calc2 r = .ok r') {k : String}
    (hk : k ≠ "READS_IN_UNIQUE_PAIRS") : alookup r' k = alookup r k := by
  unfold calc2 at h
  split at h
  · simp at h
  · split at h
    · simp at h
    · split at h
      · simp at h
      · split at h
        · simp at h
        · simp only [Except.ok.injEq] at h
          subst h
          rw [alookup_aupsert, if_neg hk]

theorem calc3_lookup_ne {r r' : Record} (h : calc3 r = .ok r') {k : String}
    (hk : k ≠ "READS_IN_UNIQUE_UNPAIRED") : alookup r' k = alookup r k := by
  unfold calc3 at h
  split at h
  · simp at h
  · split at h
    · simp at h
    · split at h
      · simp at h
      · split at h
        · simp at h
        · simp only [Except.ok.injEq] at h
          subst h
          rw [alookup_aupsert, if_neg hk]

theorem calc4_lookup_ne {r r' : Record} (h : calc4 r = .ok r') {k : String}
    (hk : k ≠ "READS_IN_DUPLICATE_PAIRS_OPTICAL") : alookup r' k = alookup r k := by
  unfold calc4 at h
  split at h
  · simp at h
  · split at h
    · simp at h
    · simp only [Except.ok.injEq] at h
      subst h
      rw [alookup_aupsert, if_neg hk]

theorem calc5_lookup_ne {r r' : Record} (h : calc5 r = .ok r') {k : String}
    (hk : k ≠ "READS_IN_DUPLICATE_PAIRS_NONOPTICAL") : alookup r' k = alookup r k := by
  unfold calc5 at h
  split at h
  · simp at h
  · split at h
    · simp at h
    · split at h
      · simp at h
      · split at h
        · simp at h
        · simp only [Except.ok.injEq] at h
          subst h
          rw [alookup_aupsert, if_neg hk]

theorem calc6_lookup_ne {r r' : Record} (h : calc6 r = .ok r') {k : String}
    (hk : k ≠ "READS_IN_DUPLICATE_UNPAIRED") : alookup r' k = alookup r k := by
  unfold calc6 at h
  split at h
  · simp at h
  · simp only [Except.ok.injEq] at h
    subst h
    rw [alookup_aupsert, if_neg hk]

theorem calc7_lookup_ne {r r' : Record} (h : calc7 r = .ok r') {k : String}
    (hk : k ≠ "READS_UNMAPPED") : alookup r' k = alookup r k := by
  unfold calc7 at h
  split at h
  · simp at h
  · simp only [Except.ok.injEq] at h
    subst h
    rw [alookup_aupsert, if_neg hk]

theorem derive_lookup_ne {r r' : Record} (h : derive r = .ok r') {k : String}
    (hk : k ∉ derivedNames) : alookup r' k = alookup r k := by
  simp only [derivedNames, List.mem_cons, not_or] at hk
  obtain ⟨n1, n2, n3, n4, n5, n6, n7, -⟩ := hk
  unfold derive at h
  split at h
  · simp at h
  next r1 hc1 =>
    split at h
    · simp at h
    next r2 hc2 =>
      split at h
      · simp at h
      next r3 hc3 =>
        split at h
        · simp at h
        next r4 hc4 =>
          split at h
          · simp at h
          next r5 hc5 =>
            split at h
            · simp at h
            next r6 hc6 =>
              rw [calc7_lookup_ne h n7, calc6_lookup_ne hc6 n6, calc5_lookup_ne hc5 n5,
                calc4_lookup_ne hc4 n4, calc3_lookup_ne hc3 n3, calc2_lookup_ne hc2 n2,
                calc1_lookup_ne hc1 n1]

theorem derive_bothZero {r r' : Record} (h : derive r = .ok r') :
    bothZero r' = bothZero r := by
  unfold bothZero
  rw [derive_lookup_ne h (by decide), derive_lookup_ne h (by decide)]

theorem calc1_complete {r : Record} {d : ℚ}
    (h : alookup r "READ_PAIR_DUPLICATES" = some (.num d)) :
    calc1 r = .ok (aupsert r "READS_IN_DUPLICATE_PAIRS" (.num (2 * d))) := by
  unfold calc1 getVal
  rw [h]
  simp [asNum, ratMul_eq]

theorem calc2_complete {r : Record} {pe d : ℚ}
    (h1 : alookup r "READ_PAIRS_EXAMINED" = some (.num pe))
    (h2 : alookup r "READ_PAIR_DUPLICATES" = some (.num d)) :
    calc2 r = .ok (aupsert r "READS_IN_UNIQUE_PAIRS" (.num (2 * (pe - d)))) := by
  unfold calc2 getVal
  rw [h1, h2]
  simp [asNum, ratMul_eq, ratSub_eq]

theorem calc3_complete {r : Record} {ue ud : ℚ}
    (h1 : alookup r "UNPAIRED_READS_EXAMINED" = some (.num ue))
    (h2 : alookup r "UNPAIRED_READ_DUPLICATES" = some (.num ud)) :
    calc3 r = .ok (aupsert r "READS_IN_UNIQUE_UNPAIRED" (.num (ue - ud))) := by
  unfold calc3 getVal
  rw [h1, h2]
  simp [asNum, ratSub_eq]

theorem calc4_complete {r : Record} {od : ℚ}
    (h : alookup r "READ_PAIR_OPTICAL_DUPLICATES" = some (.num od)) :
    calc4 r = .ok (aupsert r "READS_IN_DUPLICATE_PAIRS_OPTICAL" (.num (2 * od))) := by
  unfold calc4 getVal
  rw [h]
  simp [asNum, ratMul_eq]

theorem calc5_complete {r : Record} {dp op : ℚ}
    (h1 : alookup r "READS_IN_DUPLICATE_PAIRS" = some (.num dp))
    (h2 : alookup r "READS_IN_DUPLICATE_PAIRS_OPTICAL" = some (.num op)) :
    calc5 r = .ok (aupsert r "READS_IN_DUPLICATE_PAIRS_NONOPTICAL" (.num (dp - op))) := by
  unfold calc5 getVal
  rw [h1, h2]
  simp [asNum, ratSub_eq]

theorem calc6_complete {r : Record} {v : FieldValue}
    (h : alookup r "UNPAIRED_READ_DUPLICATES" = some v) :
    calc6 r = .ok (aupsert r "READS_IN_DUPLICATE_UNPAIRED" v) := by
  unfold calc6 getVal
  rw [h]

theorem calc7_complete {r : Record} {v : FieldValue}
    (h : alookup r "UNMAPPED_READS" = some v) :
    calc7 r = .ok (aupsert r "READS_UNMAPPED" v) := by
  unfold calc7 getVal
  rw [h]

theorem mem_aerase_ne {α : Type} {p : String × α} {l : List (String × α)} {k : String}
    (h : p ∈ aerase l k) : p.1 ≠ k := by
  induction l with
  | nil => simp [aerase] at h
  | cons hd tl ih =>
    obtain ⟨k0, v0⟩ := hd
    by_cases h0 : k0 = k
    · simp only [aerase, if_pos h0] at h
      exact ih h
    · simp only [aerase, if_neg h0, List.mem_cons] at h
      rcases h with h | h
      · rw [h]
        exact h0
      · exact ih h

/-- The collection invariant maintained through the whole pipeline: every
retained record passed the no-reads validation, and sample names are
unique. -/
def GoodColl (d : Collection) : Prop :=
  (∀ p ∈ d, bothZero p.2 = false) ∧ (d.map Prod.fst).Nodup

theorem goodColl_filter {d : Collection} (p : String × Record → Bool)
    (hg : GoodColl d) : GoodColl (d.filter p) := by
  constructor
  · intro q hq
    exact hg.1 q (List.mem_filter.mp hq).1
  · exact ((List.filter_sublist d).map Prod.fst).nodup hg.2


theorem headerStep_good {f : LogFile} {s l v : String} {data : Collection}
    {ev : List LogEvent} {d' : Collection} {ev' : List LogEvent}
    (hg : GoodColl data) (h : headerStep f s l v data ev = .ok (d', ev')) :
    GoodColl d' := by
  unfold headerStep at h
  cases hrec : parsePair (splitTab l) (splitTab v) with
  | error e =>
    simp only [hrec] at h
    exact absurd h (by simp)
  | ok rec =>
    simp only [hrec] at h
    by_cases hbz : bothZero rec = true
    · rw [if_pos hbz] at h
      simp only [Except.ok.injEq, Prod.mk.injEq] at h
      obtain ⟨hd, -⟩ := h
      subst hd
      constructor
      · intro p hp
        have hne := mem_aerase_ne hp
        rcases mem_aupsert (mem_aerase hp) with hmem | hmem
        · exact hg.1 p hmem
        · rw [hmem] at hne
          exact absurd rfl hne
      · exact (keys_aerase_sublist (aupsert data s rec) s).nodup (keys_aupsert_nodup s rec hg.2)
    · rw [if_neg hbz] at h
      simp only [Except.ok.injEq, Prod.mk.injEq] at h
      obtain ⟨hd, -⟩ := h
      subst hd
      rw [Bool.not_eq_true] at hbz
      constructor
      · intro p hp
        rcases mem_aupsert hp with hmem | hmem
        · exact hg.1 p hmem
        · rw [hmem]
          exact hbz
      · exact keys_aupsert_nodup s rec hg.2

theorem processLines_good (clean : String → String → String) (f : LogFile) :
    ∀ (ls : List String) (sn : Option String) (data : Collection) (ev : List LogEvent)
      (d' : Collection) (ev' : List LogEvent),
      GoodColl data → processLines clean f ls sn data ev = .ok (d', ev') → GoodColl d'
  | [], sn, data, ev, d', ev', hg, h => by
    simp only [processLines, Except.ok.injEq, Prod.mk.injEq] at h
    exact h.1 ▸ hg
  | l :: rest, sn, data, ev, d', ev', hg, h => by
    simp only [processLines] at h
    cases hu : updateSName clean f.root l sn with
    | none =>
      simp only [hu] at h
      exact processLines_good clean f rest none data ev d' ev' hg h
    | some s =>
      simp only [hu] at h
      by_cases hm : hasMarker l = true
      · rw [if_pos hm] at h
        cases rest with
        | nil => exact headerStep_good hg h
        | cons v rest2 =>
          cases hh : headerStep f s l v data ev with
          | error e =>
            simp only [hh] at h
            exact absurd h (by simp)
          | ok pr =>
            obtain ⟨d1, e1⟩ := pr
            simp only [hh] at h
            exact processLines_good clean f rest2 none d1 e1 d' ev'
              (headerStep_good hg hh) h
      · rw [if_neg hm] at h
        exact processLines_good clean f rest (some s) data ev d' ev' hg h

theorem processFile_good {clean : String → String → String} {f : LogFile}
    {data : Collection} {ev : List LogEvent} {d' : Collection} {ev' : List LogEvent}
    (hg : GoodColl data) (h : processFile clean f data ev = .ok (d', ev')) :
    GoodColl d' := by
  unfold processFile at h
  cases hp : processLines clean f f.lines (some f.s_name) data ev with
  | error e =>
    simp only [hp] at h
    exact absurd h (by simp)
  | ok pr =>
    obtain ⟨d1, e1⟩ := pr
    simp only [hp, cleanupEmpty, Except.ok.injEq, Prod.mk.injEq] at h
    exact h.1 ▸ goodColl_filter _ (processLines_good clean f f.lines (some f.s_name) data ev d1 e1 hg hp)

theorem scanFiles_good (clean : String → String → String) :
    ∀ (fs : List LogFile) (data : Collection) (ev : List LogEvent)
      (d' : Collection) (ev' : List LogEvent),
      GoodColl data → scanFiles clean fs data ev = .ok (d', ev') → GoodColl d'
  | [], data, ev, d', ev', hg, h => by
    simp only [scanFiles, Except.ok.injEq, Prod.mk.injEq] at h
    exact h.1 ▸ hg
  | f :: fs, data, ev, d', ev', hg, h => by
    simp only [scanFiles] at h
    cases hp : processFile clean f data ev with
    | error e =>
      simp only [hp] at h
      exact absurd h (by simp)
    | ok pr =>
      obtain ⟨d1, e1⟩ := pr
      simp only [hp] at h
      exact scanFiles_good clean fs d1 e1 d' ev' (processFile_good hg hp) h

theorem deriveAll_keys :
    ∀ {d d' : Collection}, deriveAll d = .ok d' → d'.map Prod.fst = d.map Prod.fst
  | [], d', h => by
    simp only [deriveAll, Except.ok.injEq] at h
    simp [← h]
  | (s, r) :: tl, d', h => by
    simp only [deriveAll] at h
    cases hr : derive r with
    | error e =>
      simp only [hr] at h
      exact absurd h (by simp)
    | ok r' =>
      simp only [hr] at h
      cases hrest : deriveAll tl with
      | error e =>
        simp only [hrest] at h
        exact absurd h (by simp)
      | ok rest' =>
        simp only [hrest, Except.ok.injEq] at h
        subst h
        simp [deriveAll_keys hrest]

theorem deriveAll_mem :
    ∀ {d d' : Collection}, deriveAll d = .ok d' →
      ∀ p ∈ d', ∃ r, (p.1, r) ∈ d ∧ derive r = .ok p.2
  | [], d', h => by
    simp only [deriveAll, Except.ok.injEq] at h
    subst h
    intro p hp
    simp at hp
  | (s, r) :: tl, d', h => by
    simp only [deriveAll] at h
    cases hr : derive r with
    | error e =>
      simp only [hr] at h
      exact absurd h (by simp)
    | ok r' =>
      simp only [hr] at h
      cases hrest : deriveAll tl with
      | error e =>
        simp only [hrest] at h
        exact absurd h (by simp)
      | ok rest' =>
        simp only [hrest, Except.ok.injEq] at h
        subst h
        intro p hp
        rcases List.mem_cons.mp hp with hp | hp
        · subst hp
          exact ⟨r, by simp, hr⟩
        · obtain ⟨rr, hrr, hdd⟩ := deriveAll_mem hrest p hp
          exact ⟨rr, List.mem_cons_of_mem _ hrr, hdd⟩

theorem deriveAll_good {d d' : Collection} (hg : GoodColl d)
    (h : deriveAll d = .ok d') : GoodColl d' := by
  constructor
  · intro p hp
    obtain ⟨r, hr, hd⟩ := deriveAll_mem h p hp
    rw [derive_bothZero hd]
    exact hg.1 (p.1, r) hr
  · rw [deriveAll_keys h]
    exact hg.2

theorem finalize_good {ev : List LogEvent} {d : Collection} (hg : GoodColl d) :
    GoodColl (resultData (finalize ev d)) := by
  unfold finalize
  by_cases he : d.isEmpty
  · rw [if_pos he]
    exact hg
  · rw [if_neg he]
    cases hda : deriveAll d with
    | error e => exact ⟨by simp [resultData], by simp [resultData]⟩
    | ok d2 => exact deriveAll_good hg hda

/-- The pipeline invariant at the returned collection: no record with
both examined-read fields zero survives, and sample names are unique. -/
theorem parse_inv (clean : String → String → String) (ignored : String → Bool)
    (files : List LogFile) :
    GoodColl (resultData (parse_reports clean ignored files)) := by
  unfold parse_reports
  cases hs : scanFiles clean files [] [] with
  | error e => exact ⟨by simp [resultData], by simp [resultData]⟩
  | ok pr =>
    obtain ⟨data0, ev⟩ := pr
    have hg0 : GoodColl data0 :=
      scanFiles_good clean files [] [] data0 ev ⟨by simp, by simp⟩ hs
    exact finalize_good (goodColl_filter _ hg0)

theorem parsePair_ne_nil {keys vals : List String} {rec : Record}
    (h : parsePair keys vals = .ok rec) (hk : keys ≠ []) : rec.isEmpty = false := by
  cases keys with
  | nil => exact absurd rfl hk
  | cons k ks =>
    have hs := ppGo_isSome (k :: ks) vals [] rec k h (List.mem_cons_self k ks)
    cases rec with
    | nil => simp [alookup] at hs
    | cons p ps => rfl

/-- Identity stand-in for the external `clean_s_name` collaborator, used
by the concrete runs below. -/
def cleanId : String → String → String := fun s _ => s

/-- Stand-in for the external `ignore_samples` collaborator that keeps
every sample. -/
def ignoreNone : String → Bool := fun _ => false

/-- A complete six-field Picard metrics header row (it contains the
`UNPAIRED_READ_DUPLICATES` marker). -/
def hdrSix : String :=
  "READ_PAIR_DUPLICATES\tREAD_PAIRS_EXAMINED\tUNPAIRED_READS_EXAMINED\tUNPAIRED_READ_DUPLICATES\tREAD_PAIR_OPTICAL_DUPLICATES\tUNMAPPED_READS"

/-- The record a parse of `pairRecord`-style rows produces, or the empty
record when the parse raised. -/
def pairRecord (hrow vrow : String) : Record :=
  okRecord (parsePair (splitTab hrow) (splitTab vrow))

def c2file : LogFile := ⟨"s2", "c2.txt", "/r", ["LIBRARY\tUNPAIRED_READ_DUPLICATES", "5"]⟩

def c2good : LogFile := ⟨"s2b", "c2b.txt", "/r", [hdrSix, "1\t10\t0\t0\t0\t0"]⟩

/-- Claim C2 (code_bug): the spec says a value row shorter than its header
row aborts only that sample's parse, with a warning, and processing
continues so that `parse_reports` still returns a count.  The code instead
evaluates `vals[i]` for every header position inside a
`try/except ValueError`, so the `IndexError` raised at the first missing
position is not caught and propagates out of `parse_reports`: a
two-field header with a one-field value row kills the whole run, and a
following well-formed file is never parsed. -/
theorem mdups_C2_short_row_raises :
    (splitTab "LIBRARY\tUNPAIRED_READ_DUPLICATES").length = 2
    ∧ (splitTab "5").length = 1
    ∧ parse_reports cleanId ignoreNone [c2file, c2good]
        = .error "IndexError: list index out of range" := by
  refine ⟨by decide, by decide, by decide⟩

def c3file : LogFile := ⟨"s3", "c3.txt", "/r", ["READ_PAIRS_EXAMINED\tUNPAIRED_READ_DUPLICATES", "100\t0"]⟩

/-- Claim C3 (code_bug): the spec says a record that passed the no-reads
validation but lacks one of the six raw fields needed for derived
metrics fails softly — derived fields omitted, raw fields kept, a warning
logged, no exception.  The derived-metrics loop of the code (lines
97-104) has no exception handling: on a record with
`READ_PAIRS_EXAMINED = 100` (validation passes) but no
`READ_PAIR_DUPLICATES`, `metr["READ_PAIR_DUPLICATES"]` raises `KeyError`,
which propagates out of `parse_reports`; the second conjunct shows the
record had indeed passed the no-reads validation. -/
theorem mdups_C3_missing_field_raises :
    parse_reports cleanId ignoreNone [c3file] = .error "KeyError: READ_PAIR_DUPLICATES"
    ∧ bothZero (pairRecord "READ_PAIRS_EXAMINED\tUNPAIRED_READ_DUPLICATES" "100\t0") = false := by
  refine ⟨by decide, by decide⟩

/-- Claim C7, counterexample to the claim as stated: the chart-input
structure does not list the seven derived fields of §4.5 — the source's
`keys_r` (lines 107-114) has only six entries, omitting
`READS_IN_DUPLICATE_PAIRS`. -/
theorem mdups_C7_claim_false :
    chartKeys.map Prod.fst ≠ derivedNames
    ∧ "READS_IN_DUPLICATE_PAIRS" ∉ chartKeys.map Prod.fst
    ∧ chartKeys.length = 6 := by
  refine ⟨by decide, by decide, by decide⟩

/-- Claim C7 as amended: the chart-input structure lists exactly six
derived fields, in the source's `keys_r` order (READS_IN_UNIQUE_PAIRS,
READS_IN_UNIQUE_UNPAIRED, READS_IN_DUPLICATE_PAIRS_OPTICAL,
READS_IN_DUPLICATE_PAIRS_NONOPTICAL, READS_IN_DUPLICATE_UNPAIRED,
READS_UNMAPPED — `READS_IN_DUPLICATE_PAIRS` is omitted), each labelled by
stripping `READS_` and `IN_`, replacing underscores with spaces and
title-casing (the rule of `chartLabel`). -/
theorem mdups_C7_chart_keys :
    chartKeys = [("READS_IN_UNIQUE_PAIRS", "Unique Pairs"),
      ("READS_IN_UNIQUE_UNPAIRED", "Unique Unpaired"),
      ("READS_IN_DUPLICATE_PAIRS_OPTICAL", "Duplicate Pairs Optical"),
      ("READS_IN_DUPLICATE_PAIRS_NONOPTICAL", "Duplicate Pairs Nonoptical"),
      ("READS_IN_DUPLICATE_UNPAIRED", "Duplicate Unpaired"),
      ("READS_UNMAPPED", "Unmapped")]
    ∧ chartKeys.map Prod.fst = keys_r := by
  refine ⟨by decide, by decide⟩

def c4file : LogFile := ⟨"s4", "g4.txt", "/r", [hdrSix, "10\t100\t0\t0\t2\t5"]⟩

/-- The final record `parse_reports` produces for `c4file`: six raw
fields followed by the seven derived fields. -/
def c4rec : Record :=
  [("READ_PAIR_DUPLICATES", .num 10), ("READ_PAIRS_EXAMINED", .num 100),
   ("UNPAIRED_READS_EXAMINED", .num 0), ("UNPAIRED_READ_DUPLICATES", .num 0),
   ("READ_PAIR_OPTICAL_DUPLICATES", .num 2), ("UNMAPPED_READS", .num 5),
   ("READS_IN_DUPLICATE_PAIRS", .num 20), ("READS_IN_UNIQUE_PAIRS", .num 180),
   ("READS_IN_UNIQUE_UNPAIRED", .num 0), ("READS_IN_DUPLICATE_PAIRS_OPTICAL", .num 4),
   ("READS_IN_DUPLICATE_PAIRS_NONOPTICAL", .num 16), ("READS_IN_DUPLICATE_UNPAIRED", .num 0),
   ("READS_UNMAPPED", .num 5)]

/-- Claim C4: no record whose `READ_PAIRS_EXAMINED` and
`UNPAIRED_READS_EXAMINED` fields are both zero (each defaulting to 0 when
absent) ever appears in the collection returned by `parse_reports`; such
a record is popped immediately after its header/value pair is parsed,
with a no-reads event appended, and the no-reads message is logged at
warning level (lines 57-61). -/
theorem mdups_C4_no_zero_read_records :
    (∀ (clean : String → String → String) (ignored : String → Bool)
        (files : List LogFile) (s : String) (r : Record),
      (s, r) ∈ resultData (parse_reports clean ignored files) → bothZero r = false)
    ∧ (∀ (f : LogFile) (s l v : String) (data : Collection) (ev : List LogEvent)
        (rec : Record),
      parsePair (splitTab l) (splitTab v) = .ok rec → bothZero rec = true →
      headerStep f s l v data ev
        = .ok (aerase (aupsert data s rec) s,
            (if (alookup data s).isSome then ev ++ [LogEvent.duplicateName f.fn s] else ev)
              ++ [LogEvent.noReads s]))
    ∧ ∀ s, (LogEvent.noReads s).level = LogLevel.warn := by
  refine ⟨?_, ?_, fun s => rfl⟩
  · intro clean ignored files s r hmem
    exact (parse_inv clean ignored files).1 (s, r) hmem
  · intro f s l v data ev rec hp hbz
    unfold headerStep
    simp only [hp]
    rw [if_pos hbz]

def c4zfile : LogFile := ⟨"z", "cz.txt", "/r", []⟩

/-- Witness for C4 at concrete inputs: the surviving record of `c4file`
does not have both examined-read fields zero, and a freshly parsed
record with no read evidence is dropped on the spot with the
warning-level no-reads event. -/
theorem mdups_C4_witness :
    bothZero c4rec = false
    ∧ headerStep c4zfile "z" "UNPAIRED_READ_DUPLICATES" "0" [] []
        = .ok ([], [LogEvent.noReads "z"]) := by
  refine ⟨mdups_C4_no_zero_read_records.1 cleanId ignoreNone [c4file] "s4" c4rec (by decide), ?_⟩
  have t2 := mdups_C4_no_zero_read_records.2.1 c4zfile "z" "UNPAIRED_READ_DUPLICATES" "0" [] []
    [("UNPAIRED_READ_DUPLICATES", FieldValue.num 0)] (by decide) (by decide)
  rw [t2]
  decide

def c5f1 : LogFile := ⟨"sampleA", "f1.txt", "/r", [hdrSix, "10\t100\t0\t0\t2\t5"]⟩

def c5f2 : LogFile := ⟨"sampleA", "f2.txt", "/r", [hdrSix, "20\t200\t0\t0\t4\t6"]⟩

/-- The final record of the two-file collision run: the second file's
raw values and their derived fields. -/
def c5rec : Record :=
  [("READ_PAIR_DUPLICATES", .num 20), ("READ_PAIRS_EXAMINED", .num 200),
   ("UNPAIRED_READS_EXAMINED", .num 0), ("UNPAIRED_READ_DUPLICATES", .num 0),
   ("READ_PAIR_OPTICAL_DUPLICATES", .num 4), ("UNMAPPED_READS", .num 6),
   ("READS_IN_DUPLICATE_PAIRS", .num 40), ("READS_IN_UNIQUE_PAIRS", .num 360),
   ("READS_IN_UNIQUE_UNPAIRED", .num 0), ("READS_IN_DUPLICATE_PAIRS_OPTICAL", .num 8),
   ("READS_IN_DUPLICATE_PAIRS_NONOPTICAL", .num 32), ("READS_IN_DUPLICATE_UNPAIRED", .num 0),
   ("READS_UNMAPPED", .num 6)]

/-- Claim C5, counterexample to the claim as stated: in the two-file
name-collision run a duplicate-name message is logged, but not at
warning level — the source uses `log.debug` (line 47), so no
duplicate-name warning is emitted. -/
theorem mdups_C5_claim_false :
    ¬(∃ e ∈ resultEvents (parse_reports cleanId ignoreNone [c5f1, c5f2]),
        e.isDup = true ∧ e.level = LogLevel.warn)
    ∧ ∃ e ∈ resultEvents (parse_reports cleanId ignoreNone [c5f1, c5f2]),
        e.isDup = true := by
  refine ⟨by decide, by decide⟩

/-- Claim C5 as amended: every canonical sample name maps to exactly one
record in the final collection (the key list is duplicate-free for every
run), and when two blocks resolve to the same canonical name the final
entry holds the later block's values while a duplicate-name message is
logged at debug level (not warning level). -/
theorem mdups_C5_last_write_wins_debug :
    (∀ (clean : String → String → String) (ignored : String → Bool) (files : List LogFile),
      ((resultData (parse_reports clean ignored files)).map Prod.fst).Nodup)
    ∧ parse_reports cleanId ignoreNone [c5f1, c5f2]
        = .ok ⟨[("sampleA", c5rec)], [LogEvent.duplicateName "f2.txt" "sampleA"], 1⟩
    ∧ (LogEvent.duplicateName "f2.txt" "sampleA").level = LogLevel.debug :=
  ⟨fun clean ignored files => (parse_inv clean ignored files).2, by decide, by decide⟩

def c6file : LogFile := ⟨"samp6", "c6.txt", "/r", [hdrSix, "30\t300\t0\t0\t6\t7"]⟩

/-- Claim C6, counterexample to the claim as stated: a header-marker line
with no earlier block-start line in its file is not ignored.  In
`c6file` the first line contains the marker and is not a block-start
line, yet the run parses the pair and the final collection holds a
record for the file's default sample name. -/
theorem mdups_C6_claim_false :
    hasMarker hdrSix = true
    ∧ blockStart hdrSix = false
    ∧ (resultData (parse_reports cleanId ignoreNone [c6file])).map Prod.fst = ["samp6"] := by
  refine ⟨by decide, by decide, by decide⟩

/-- Claim C6 as amended: a header-marker line is ignored exactly when the
pending sample name is unset at that line — which happens after a
block-start line whose `INPUT` directive cannot be resolved, or after a
previous header/value pair was consumed — and not merely when no
block-start precedes it (before any block-start the pending name is the
file's default name, so such a header line is parsed; see C9).  When the
pending name works out to `none`, the line changes neither the
collection nor the events and its successor line is not consumed. -/
theorem mdups_C6_unset_name_ignored (clean : String → String → String) (f : LogFile)
    (l : String) (rest : List String) (sn : Option String) (data : Collection)
    (ev : List LogEvent) (hm : hasMarker l = true)
    (hu : updateSName clean f.root l sn = none) :
    processLines clean f (l :: rest) sn data ev = processLines clean f rest none data ev := by
  simp only [processLines, hu]

def c6wfile : LogFile := ⟨"w6", "c6w.txt", "/r", []⟩

def c6wline : String := "markduplicates UNPAIRED_READ_DUPLICATES input"

/-- Witness for the amended C6: a line that is both a block-start and a
header-marker line, whose `INPUT` directive resolves to nothing, is
skipped without consuming the next line, even though a stale pending
name was set. -/
theorem mdups_C6_witness :
    processLines cleanId c6wfile [c6wline, "1\t2"] (some "stale") [] []
      = processLines cleanId c6wfile ["1\t2"] none [] [] :=
  mdups_C6_unset_name_ignored cleanId c6wfile c6wline ["1\t2"] (some "stale") [] []
    (by decide) (by decide)

/-- Claim C9: because the pending sample name is initialised per file to
the file-derived default name `f['s_name']` (line 32) rather than to an
unset sentinel, a file whose header-marker line comes before any
block-start line still has its header/value pair parsed, and the record
is stored under the file's default sample name. -/
theorem mdups_C9_default_name_block (clean : String → String → String)
    (sn fn root hrow vrow : String) (rec : Record)
    (hb : blockStart hrow = false) (hm : hasMarker hrow = true)
    (hp : parsePair (splitTab hrow) (splitTab vrow) = .ok rec)
    (hz : bothZero rec = false) :
    processFile clean ⟨sn, fn, root, [hrow, vrow]⟩ [] [] = .ok ([(sn, rec)], []) := by
  have hne : rec.isEmpty = false := parsePair_ne_nil hp (splitTab_ne_nil hrow)
  have hstep : headerStep ⟨sn, fn, root, [hrow, vrow]⟩ sn hrow vrow [] [] = .ok ([(sn, rec)], []) := by
    unfold headerStep
    simp [hp, hz, alookup, aupsert]
  unfold processFile
  simp only [processLines, updateSName, hb, Bool.false_eq_true, if_false, hm, if_true, hstep]
  simp [cleanupEmpty, hne]

def c9file : LogFile := ⟨"s9", "c9.txt", "/r", [hdrSix, "1\t50\t0\t0\t1\t3"]⟩

def c9rec : Record :=
  [("READ_PAIR_DUPLICATES", .num 1), ("READ_PAIRS_EXAMINED", .num 50),
   ("UNPAIRED_READS_EXAMINED", .num 0), ("UNPAIRED_READ_DUPLICATES", .num 0),
   ("READ_PAIR_OPTICAL_DUPLICATES", .num 1), ("UNMAPPED_READS", .num 3)]

/-- Witness for C9: scanning a concrete file whose first line is the
marker header (no block-start anywhere) stores the parsed record under
the default sample name `s9`. -/
theorem mdups_C9_witness :
    processFile cleanId ⟨"s9", "c9.txt", "/r", [hdrSix, "1\t50\t0\t0\t1\t3"]⟩ [] []
      = .ok ([("s9", c9rec)], []) :=
  mdups_C9_default_name_block cleanId "s9" "c9.txt" "/r" hdrSix "1\t50\t0\t0\t1\t3" c9rec
    (by decide) (by decide) (by decide) (by decide)

/-- Claim C10: whenever a header/value pair is parsed for a sample name,
the collection entry for that name afterwards is exactly the freshly
parsed record (or absent, when the fresh record failed the no-reads
validation), for every prior collection — the existing record is
replaced wholesale (line 49's fresh `dict()`), never merged: every key of
the resulting record comes from the new header row. -/
theorem mdups_C10_full_replacement (f : LogFile) (s l v : String) (data : Collection)
    (ev : List LogEvent) (rec : Record)
    (hp : parsePair (splitTab l) (splitTab v) = .ok rec) :
    alookup (stepData (headerStep f s l v data ev)) s
      = (if bothZero rec then none else some rec)
    ∧ ∀ k, k ∈ rec.map Prod.fst → k ∈ splitTab l := by
  constructor
  · unfold headerStep
    simp only [hp]
    by_cases hbz : bothZero rec = true
    · rw [if_pos hbz, if_pos hbz]
      simp [stepData, alookup_aerase]
    · rw [if_neg hbz, if_neg hbz]
      simp [stepData, alookup_aupsert]
  · intro k hk
    have hs := (alookup_isSome_iff rec k).mpr hk
    rcases ppGo_keys_sub (splitTab l) (splitTab v) [] rec k hp hs with h' | h'
    · simp [alookup] at h'
    · exact h'

def c10file : LogFile := ⟨"sx", "c10.txt", "/r", []⟩

def c10hdr : String := "LIBRARY\tREAD_PAIRS_EXAMINED\tUNPAIRED_READ_DUPLICATES"

def c10rec : Record :=
  [("LIBRARY", .text "L"), ("READ_PAIRS_EXAMINED", .num 7), ("UNPAIRED_READ_DUPLICATES", .num 0)]

/-- Witness for C10: reparsing sample `s` wipes out the old record — the
entry afterwards is exactly the fresh three-field record even though the
prior record held an unrelated `OLD` field, and every new key comes from
the new header row. -/
theorem mdups_C10_witness :
    alookup (stepData (headerStep c10file "s" c10hdr "L\t7\t0"
        [("s", [("OLD", FieldValue.text "x")])] [])) "s"
      = (if bothZero c10rec then none else some c10rec)
    ∧ "LIBRARY" ∈ splitTab c10hdr := by
  have t := mdups_C10_full_replacement c10file "s" c10hdr "L\t7\t0"
    [("s", [("OLD", FieldValue.text "x")])] [] c10rec (by decide)
  exact ⟨t.1, t.2 "LIBRARY" (by decide)⟩

/-- Claim C8: for a header row and value row whose tab-splits have equal
length, the pair parse succeeds; the resulting record's keys are exactly
the header field names (every header name present, nothing else), and —
when the header names are distinct, as in a real Picard header — each
name is bound to the float coercion of the positionally corresponding
value (`coerce`: the parsed number on success, the verbatim text on
failure). -/
theorem mdups_C8_pair_parse (hrow vrow : String)
    (hlen : (splitTab hrow).length = (splitTab vrow).length) :
    parsePair (splitTab hrow) (splitTab vrow) = .ok (pairRecord hrow vrow)
    ∧ (∀ k, k ∈ (pairRecord hrow vrow).map Prod.fst ↔ k ∈ splitTab hrow)
    ∧ ((splitTab hrow).Nodup →
        ∀ i (hi : i < (splitTab hrow).length) (hv : i < (splitTab vrow).length),
          alookup (pairRecord hrow vrow) ((splitTab hrow).get ⟨i, hi⟩)
            = some (coerce ((splitTab vrow).get ⟨i, hv⟩))) := by
  obtain ⟨rec, hrec⟩ := ppGo_ok (splitTab hrow) (splitTab vrow) [] (le_of_eq hlen)
  have hok : parsePair (splitTab hrow) (splitTab vrow) = .ok rec := hrec
  have hpr : pairRecord hrow vrow = rec := by
    rw [pairRecord, hok, okRecord]
  refine ⟨by rw [hok, hpr], ?_, ?_⟩
  · intro k
    rw [hpr, ← alookup_isSome_iff]
    constructor
    · intro hs
      rcases ppGo_keys_sub (splitTab hrow) (splitTab vrow) [] rec k hrec hs with h' | h'
      · simp [alookup] at h'
      · exact h'
    · intro hk
      exact ppGo_isSome (splitTab hrow) (splitTab vrow) [] rec k hrec hk
  · intro hnd i hi hv
    rw [hpr]
    exact ppGo_pos (splitTab hrow) (splitTab vrow) [] rec hrec hnd i hi hv

/-- Witness for C8 at concrete rows: both rows split into two fields; the
parse succeeds, the record's keys are the two header names, and the
positional part binds `LIBRARY` to the verbatim text and
`PERCENT_DUPLICATION` to the parsed number. -/
theorem mdups_C8_witness :
    parsePair (splitTab "LIBRARY\tPERCENT_DUPLICATION") (splitTab "lib1\t0.5")
      = .ok (pairRecord "LIBRARY\tPERCENT_DUPLICATION" "lib1\t0.5")
    ∧ ("LIBRARY" ∈ (pairRecord "LIBRARY\tPERCENT_DUPLICATION" "lib1\t0.5").map Prod.fst)
    ∧ alookup (pairRecord "LIBRARY\tPERCENT_DUPLICATION" "lib1\t0.5") "PERCENT_DUPLICATION"
        = some (coerce "0.5") := by
  have t := mdups_C8_pair_parse "LIBRARY\tPERCENT_DUPLICATION" "lib1\t0.5" (by decide)
  refine ⟨t.1, (t.2.1 "LIBRARY").mpr (by decide), ?_⟩
  have tp := t.2.2 (by decide) 1 (by decide) (by decide)
  have e1 : (splitTab "LIBRARY\tPERCENT_DUPLICATION").get ⟨1, by decide⟩ = "PERCENT_DUPLICATION" := by decide
  have e2 : (splitTab "lib1\t0.5").get ⟨1, by decide⟩ = "0.5" := by decide
  rw [e1, e2] at tp
  exact tp

theorem alookup_aupsert_ne {a : Type} {l : List (String × a)} {k k' : String} (v : a)
    (h : k' ≠ k) : alookup (aupsert l k v) k' = alookup l k' := by
  rw [alookup_aupsert, if_neg h]

theorem alookup_aupsert_self {a : Type} (l : List (String × a)) (k : String) (v : a) :
    alookup (aupsert l k v) k = some v := by
  rw [alookup_aupsert, if_pos rfl]

theorem derive_complete {r : Record} {d pe ue ud od um : ℚ}
    (h1 : alookup r "READ_PAIR_DUPLICATES" = some (.num d))
    (h2 : alookup r "READ_PAIRS_EXAMINED" = some (.num pe))
    (h3 : alookup r "UNPAIRED_READS_EXAMINED" = some (.num ue))
    (h4 : alookup r "UNPAIRED_READ_DUPLICATES" = some (.num ud))
    (h5 : alookup r "READ_PAIR_OPTICAL_DUPLICATES" = some (.num od))
    (h6 : alookup r "UNMAPPED_READS" = some (.num um)) :
    derive r = .ok (aupsert (aupsert (aupsert (aupsert (aupsert (aupsert (aupsert (r) "READS_IN_DUPLICATE_PAIRS" (FieldValue.num (2 * d))) "READS_IN_UNIQUE_PAIRS" (FieldValue.num (2 * (pe - d)))) "READS_IN_UNIQUE_UNPAIRED" (FieldValue.num (ue - ud))) "READS_IN_DUPLICATE_PAIRS_OPTICAL" (FieldValue.num (2 * od))) "READS_IN_DUPLICATE_PAIRS_NONOPTICAL" (FieldValue.num (2 * d - 2 * od))) "READS_IN_DUPLICATE_UNPAIRED" (FieldValue.num (ud))) "READS_UNMAPPED" (FieldValue.num (um))) := by
  have hc1 : calc1 r = .ok (aupsert (r) "READS_IN_DUPLICATE_PAIRS" (FieldValue.num (2 * d))) := calc1_complete h1
  have hc2 : calc2 (aupsert (r) "READS_IN_DUPLICATE_PAIRS" (FieldValue.num (2 * d))) = .ok (aupsert (aupsert (r) "READS_IN_DUPLICATE_PAIRS" (FieldValue.num (2 * d))) "READS_IN_UNIQUE_PAIRS" (FieldValue.num (2 * (pe - d)))) :=
    calc2_complete (by rw [alookup_aupsert_ne _ (by decide)]; exact h2)
      (by rw [alookup_aupsert_ne _ (by decide)]; exact h1)
  have hc3 : calc3 (aupsert (aupsert (r) "READS_IN_DUPLICATE_PAIRS" (FieldValue.num (2 * d))) "READS_IN_UNIQUE_PAIRS" (FieldValue.num (2 * (pe - d)))) = .ok (aupsert (aupsert (aupsert (r) "READS_IN_DUPLICATE_PAIRS" (FieldValue.num (2 * d))) "READS_IN_UNIQUE_PAIRS" (FieldValue.num (2 * (pe - d)))) "READS_IN_UNIQUE_UNPAIRED" (FieldValue.num (ue - ud))) :=
    calc3_complete (by rw [alookup_aupsert_ne _ (by decide), alookup_aupsert_ne _ (by decide)]; exact h3)
      (by rw [alookup_aupsert_ne _ (by decide), alookup_aupsert_ne _ (by decide)]; exact h4)
  have hc4 : calc4 (aupsert (aupsert (aupsert (r) "READS_IN_DUPLICATE_PAIRS" (FieldValue.num (2 * d))) "READS_IN_UNIQUE_PAIRS" (FieldValue.num (2 * (pe - d)))) "READS_IN_UNIQUE_UNPAIRED" (FieldValue.num (ue - ud))) = .ok (aupsert (aupsert (aupsert (aupsert (r) "READS_IN_DUPLICATE_PAIRS" (FieldValue.num (2 * d))) "READS_IN_UNIQUE_PAIRS" (FieldValue.num (2 * (pe - d)))) "READS_IN_UNIQUE_UNPAIRED" (FieldValue.num (ue - ud))) "READS_IN_DUPLICATE_PAIRS_OPTICAL" (FieldValue.num (2 * od))) :=
    calc4_complete (by rw [alookup_aupsert_ne _ (by decide), alookup_aupsert_ne _ (by decide), alookup_aupsert_ne _ (by decide)]; exact h5)
  have hc5 : calc5 (aupsert (aupsert (aupsert (aupsert (r) "READS_IN_DUPLICATE_PAIRS" (FieldValue.num (2 * d))) "READS_IN_UNIQUE_PAIRS" (FieldValue.num (2 * (pe - d)))) "READS_IN_UNIQUE_UNPAIRED" (FieldValue.num (ue - ud))) "READS_IN_DUPLICATE_PAIRS_OPTICAL" (FieldValue.num (2 * od))) = .ok (aupsert (aupsert (aupsert (aupsert (aupsert (r) "READS_IN_DUPLICATE_PAIRS" (FieldValue.num (2 * d))) "READS_IN_UNIQUE_PAIRS" (FieldValue.num (2 * (pe - d)))) "READS_IN_UNIQUE_UNPAIRED" (FieldValue.num (ue - ud))) "READS_IN_DUPLICATE_PAIRS_OPTICAL" (FieldValue.num (2 * od))) "READS_IN_DUPLICATE_PAIRS_NONOPTICAL" (FieldValue.num (2 * d - 2 * od))) :=
    calc5_complete (by rw [alookup_aupsert_ne _ (by decide), alookup_aupsert_ne _ (by decide), alookup_aupsert_ne _ (by decide), alookup_aupsert_self])
      (by rw [alookup_aupsert_self])
  have hc6 : calc6 (aupsert (aupsert (aupsert (aupsert (aupsert (r) "READS_IN_DUPLICATE_PAIRS" (FieldValue.num (2 * d))) "READS_IN_UNIQUE_PAIRS" (FieldValue.num (2 * (pe - d)))) "READS_IN_UNIQUE_UNPAIRED" (FieldValue.num (ue - ud))) "READS_IN_DUPLICATE_PAIRS_OPTICAL" (FieldValue.num (2 * od))) "READS_IN_DUPLICATE_PAIRS_NONOPTICAL" (FieldValue.num (2 * d - 2 * od))) = .ok (aupsert (aupsert (aupsert (aupsert (aupsert (aupsert (r) "READS_IN_DUPLICATE_PAIRS" (FieldValue.num (2 * d))) "READS_IN_UNIQUE_PAIRS" (FieldValue.num (2 * (pe - d)))) "READS_IN_UNIQUE_UNPAIRED" (FieldValue.num (ue - ud))) "READS_IN_DUPLICATE_PAIRS_OPTICAL" (FieldValue.num (2 * od))) "READS_IN_DUPLICATE_PAIRS_NONOPTICAL" (FieldValue.num (2 * d - 2 * od))) "READS_IN_DUPLICATE_UNPAIRED" (FieldValue.num (ud))) :=
    calc6_complete (by rw [alookup_aupsert_ne _ (by decide), alookup_aupsert_ne _ (by decide), alookup_aupsert_ne _ (by decide), alookup_aupsert_ne _ (by decide), alookup_aupsert_ne _ (by decide)]; exact h4)
  have hc7 : calc7 (aupsert (aupsert (aupsert (aupsert (aupsert (aupsert (r) "READS_IN_DUPLICATE_PAIRS" (FieldValue.num (2 * d))) "READS_IN_UNIQUE_PAIRS" (FieldValue.num (2 * (pe - d)))) "READS_IN_UNIQUE_UNPAIRED" (FieldValue.num (ue - ud))) "READS_IN_DUPLICATE_PAIRS_OPTICAL" (FieldValue.num (2 * od))) "READS_IN_DUPLICATE_PAIRS_NONOPTICAL" (FieldValue.num (2 * d - 2 * od))) "READS_IN_DUPLICATE_UNPAIRED" (FieldValue.num (ud))) = .ok (aupsert (aupsert (aupsert (aupsert (aupsert (aupsert (aupsert (r) "READS_IN_DUPLICATE_PAIRS" (FieldValue.num (2 * d))) "READS_IN_UNIQUE_PAIRS" (FieldValue.num (2 * (pe - d)))) "READS_IN_UNIQUE_UNPAIRED" (FieldValue.num (ue - ud))) "READS_IN_DUPLICATE_PAIRS_OPTICAL" (FieldValue.num (2 * od))) "READS_IN_DUPLICATE_PAIRS_NONOPTICAL" (FieldValue.num (2 * d - 2 * od))) "READS_IN_DUPLICATE_UNPAIRED" (FieldValue.num (ud))) "READS_UNMAPPED" (FieldValue.num (um))) :=
    calc7_complete (by rw [alookup_aupsert_ne _ (by decide), alookup_aupsert_ne _ (by decide), alookup_aupsert_ne _ (by decide), alookup_aupsert_ne _ (by decide), alookup_aupsert_ne _ (by decide), alookup_aupsert_ne _ (by decide)]; exact h6)
  unfold derive
  simp only [hc1, hc2, hc3, hc4, hc5, hc6, hc7]

/-- Claim C1: on a record holding numeric values for the six raw fields,
the derived-metrics step succeeds and extends the record with exactly the
seven derived fields, inserted in the source's assignment order with the
specified arithmetic (pair counts doubled); every other key keeps its
previous binding. -/
theorem mdups_C1_derived_fields (r : Record) (d pe ue ud od um : ℚ)
    (h1 : alookup r "READ_PAIR_DUPLICATES" = some (.num d))
    (h2 : alookup r "READ_PAIRS_EXAMINED" = some (.num pe))
    (h3 : alookup r "UNPAIRED_READS_EXAMINED" = some (.num ue))
    (h4 : alookup r "UNPAIRED_READ_DUPLICATES" = some (.num ud))
    (h5 : alookup r "READ_PAIR_OPTICAL_DUPLICATES" = some (.num od))
    (h6 : alookup r "UNMAPPED_READS" = some (.num um)) :
    derive r = .ok (aupsert (aupsert (aupsert (aupsert (aupsert (aupsert (aupsert (r) "READS_IN_DUPLICATE_PAIRS" (FieldValue.num (2 * d))) "READS_IN_UNIQUE_PAIRS" (FieldValue.num (2 * (pe - d)))) "READS_IN_UNIQUE_UNPAIRED" (FieldValue.num (ue - ud))) "READS_IN_DUPLICATE_PAIRS_OPTICAL" (FieldValue.num (2 * od))) "READS_IN_DUPLICATE_PAIRS_NONOPTICAL" (FieldValue.num (2 * d - 2 * od))) "READS_IN_DUPLICATE_UNPAIRED" (FieldValue.num (ud))) "READS_UNMAPPED" (FieldValue.num (um)))
    ∧ alookup (okRecord (derive r)) "READS_IN_DUPLICATE_PAIRS" = some (FieldValue.num (2 * d))
    ∧ alookup (okRecord (derive r)) "READS_IN_UNIQUE_PAIRS" = some (FieldValue.num (2 * (pe - d)))
    ∧ alookup (okRecord (derive r)) "READS_IN_UNIQUE_UNPAIRED" = some (FieldValue.num (ue - ud))
    ∧ alookup (okRecord (derive r)) "READS_IN_DUPLICATE_PAIRS_OPTICAL" = some (FieldValue.num (2 * od))
    ∧ alookup (okRecord (derive r)) "READS_IN_DUPLICATE_PAIRS_NONOPTICAL" = some (FieldValue.num (2 * d - 2 * od))
    ∧ alookup (okRecord (derive r)) "READS_IN_DUPLICATE_UNPAIRED" = some (FieldValue.num (ud))
    ∧ alookup (okRecord (derive r)) "READS_UNMAPPED" = some (FieldValue.num (um))
    ∧ ∀ k, k ∉ derivedNames → alookup (okRecord (derive r)) k = alookup r k := by
  have hder := derive_complete h1 h2 h3 h4 h5 h6
  have hok : okRecord (derive r) = aupsert (aupsert (aupsert (aupsert (aupsert (aupsert (aupsert (r) "READS_IN_DUPLICATE_PAIRS" (FieldValue.num (2 * d))) "READS_IN_UNIQUE_PAIRS" (FieldValue.num (2 * (pe - d)))) "READS_IN_UNIQUE_UNPAIRED" (FieldValue.num (ue - ud))) "READS_IN_DUPLICATE_PAIRS_OPTICAL" (FieldValue.num (2 * od))) "READS_IN_DUPLICATE_PAIRS_NONOPTICAL" (FieldValue.num (2 * d - 2 * od))) "READS_IN_DUPLICATE_UNPAIRED" (FieldValue.num (ud))) "READS_UNMAPPED" (FieldValue.num (um)) := by rw [hder, okRecord]
  refine ⟨hder, ?_, ?_, ?_, ?_, ?_, ?_, ?_,  ?_⟩
  · rw [hok, alookup_aupsert_ne _ (by decide), alookup_aupsert_ne _ (by decide), alookup_aupsert_ne _ (by decide), alookup_aupsert_ne _ (by decide), alookup_aupsert_ne _ (by decide), alookup_aupsert_ne _ (by decide), alookup_aupsert_self]
  · rw [hok, alookup_aupsert_ne _ (by decide), alookup_aupsert_ne _ (by decide), alookup_aupsert_ne _ (by decide), alookup_aupsert_ne _ (by decide), alookup_aupsert_ne _ (by decide), alookup_aupsert_self]
  · rw [hok, alookup_aupsert_ne _ (by decide), alookup_aupsert_ne _ (by decide), alookup_aupsert_ne _ (by decide), alookup_aupsert_ne _ (by decide), alookup_aupsert_self]
  · rw [hok, alookup_aupsert_ne _ (by decide), alookup_aupsert_ne _ (by decide), alookup_aupsert_ne _ (by decide), alookup_aupsert_self]
  · rw [hok, alookup_aupsert_ne _ (by decide), alookup_aupsert_ne _ (by decide), alookup_aupsert_self]
  · rw [hok, alookup_aupsert_ne _ (by decide), alookup_aupsert_self]
  · rw [hok, alookup_aupsert_self]
  · intro k hk
    rw [hok]
    exact derive_lookup_ne hder hk

def c1rec : Record :=
  [("READ_PAIR_DUPLICATES", .num 10), ("READ_PAIRS_EXAMINED", .num 100),
   ("UNPAIRED_READS_EXAMINED", .num 0), ("UNPAIRED_READ_DUPLICATES", .num 0),
   ("READ_PAIR_OPTICAL_DUPLICATES", .num 2), ("UNMAPPED_READS", .num 5)]

/-- Witness for C1 at the spec's example: inputs 10, 100, 0, 0, 2, 5
produce derived values 20, 180, 0, 4, 16, 0, 5. -/
theorem mdups_C1_witness :
    alookup (okRecord (derive c1rec)) "READS_IN_DUPLICATE_PAIRS" = some (FieldValue.num 20)
    ∧ alookup (okRecord (derive c1rec)) "READS_IN_UNIQUE_PAIRS" = some (FieldValue.num 180)
    ∧ alookup (okRecord (derive c1rec)) "READS_IN_UNIQUE_UNPAIRED" = some (FieldValue.num 0)
    ∧ alookup (okRecord (derive c1rec)) "READS_IN_DUPLICATE_PAIRS_OPTICAL" = some (FieldValue.num 4)
    ∧ alookup (okRecord (derive c1rec)) "READS_IN_DUPLICATE_PAIRS_NONOPTICAL" = some (FieldValue.num 16)
    ∧ alookup (okRecord (derive c1rec)) "READS_IN_DUPLICATE_UNPAIRED" = some (FieldValue.num 0)
    ∧ alookup (okRecord (derive c1rec)) "READS_UNMAPPED" = some (FieldValue.num 5) := by
  have t := mdups_C1_derived_fields c1rec 10 100 0 0 2 5 (by decide) (by decide) (by decide)
    (by decide) (by decide) (by decide)
  obtain ⟨-, t1, t2, t3, t4, t5, t6, t7, -⟩ := t
  refine ⟨?_, ?_, ?_, ?_, ?_, ?_, ?_⟩
  · rw [show (20 : ℚ) = 2 * 10 by norm_num]
    exact t1
  · rw [show (180 : ℚ) = 2 * (100 - 10) by norm_num]
    exact t2
  · rw [show (0 : ℚ) = 0 - 0 by norm_num]
    exact t3
  · rw [show (4 : ℚ) = 2 * 2 by norm_num]
    exact t4
  · rw [show (16 : ℚ) = 2 * 10 - 2 * 2 by norm_num]
    exact t5
  · exact t6
  · exact t7
